import Mathlib

/-!
Verification development for the donetick-mcp-server repository.

We shallowly embed the data-transformation layer of the repository:
`scripts/import_chores.py` (class `ChoreImporter`) and the pydantic
validators of `src/donetick_mcp/models.py` (class `ChoreCreate`).

Modelling conventions:
* Machine time is measured in whole minutes (`Int`).  A timezone is a fixed
  minute offset obtained from `Env.tzOff`; this matches what the source
  actually computes, because `pytz` keeps the tzinfo attached to
  `datetime.now(tz)` through `replace`/`timedelta` arithmetic, so all
  arithmetic in `calculate_next_due_date` happens at one fixed offset.
  The epoch (minute 0 of the model) is by convention a Monday 00:00 local
  midnight, so Python's `datetime.weekday()` (Monday = 0) is
  `(t / 1440) % 7` with Euclidean division.
* Python `%` and `//` on positive divisors are `Int.emod` / `Int.ediv`.
* Fallible Python code (raised exceptions) is `Except Unit` / `Option`.
* Python dicts with optional keys become structures of `Option` fields;
  an absent key is `none`.
-/

namespace Donetick

/-! ## Python string primitives -/

/-- The characters Python's `str.strip()` removes (ASCII whitespace set). -/
def pyWhitespace : List Char := [' ', '\t', '\n', '\r', '\x0b', '\x0c']

/-- Model of Python `str.strip()`: drop leading and trailing whitespace. -/
def pyStrip (s : String) : String :=
  String.mk (((s.data.dropWhile (fun c => c ∈ pyWhitespace)).reverse.dropWhile
      (fun c => c ∈ pyWhitespace)).reverse)

/-- Model of Python `str.lower()` for the ASCII strings used here. -/
def pyLower (s : String) : String :=
  String.mk (s.data.map Char.toLower)

/-- Split a character list at every occurrence of the character `sep`
(Python `str.split(sep)` for a one-character separator). -/
def splitCharList (sep : Char) : List Char → List (List Char)
  | [] => [[]]
  | c :: rest =>
      if c = sep then [] :: splitCharList sep rest
      else
        match splitCharList sep rest with
        | [] => [[c]]
        | l :: ls => (c :: l) :: ls

/-- Model of Python `s.split(sep)` for a one-character separator. -/
def pySplitChar (sep : Char) (s : String) : List String :=
  (splitCharList sep s.data).map String.mk

/-- Model of `s.replace('Z', '+00:00')`. -/
def replaceZ (s : String) : String :=
  String.mk (s.data.flatMap (fun c => if c = 'Z' then ['+', '0', '0', ':', '0', '0'] else [c]))

/-- Value of a list of decimal digit characters. -/
def digitsVal (l : List Char) : Nat :=
  l.foldl (fun acc c => acc * 10 + (c.toNat - 48)) 0

/-- Model of Python `int(s)` on strings: optional surrounding whitespace,
optional sign, then one or more decimal digits; anything else raises
(`none`). -/
def pyInt? (s : String) : Option Int :=
  let core := (pyStrip s).data
  match core with
  | [] => none
  | '-' :: ds =>
      if ds ≠ [] ∧ ds.all Char.isDigit then some (-(digitsVal ds : Int)) else none
  | '+' :: ds =>
      if ds ≠ [] ∧ ds.all Char.isDigit then some (digitsVal ds : Int) else none
  | ds =>
      if ds.all Char.isDigit then some (digitsVal ds : Int) else none

/-! ## Minute-based time model -/

/-- Python `datetime.weekday()` of a local minute count: Monday = 0. -/
def weekdayOf (t : Int) : Int := (t.ediv 1440).emod 7

/-- Model of `dt.replace(hour := h, minute := m, second := 0,
microsecond := 0)` on a local minute count.  Python's `replace` raises
`ValueError` when the hour or minute is out of range. -/
def replaceHM (t h m : Int) : Except Unit Int :=
  if 0 ≤ h ∧ h ≤ 23 ∧ 0 ≤ m ∧ m ≤ 59 then
    .ok (t.ediv 1440 * 1440 + h * 60 + m)
  else
    .error ()

/-- Environment of a run: the current instant and the timezone database.
`nowUTC` is the current instant in minutes; `sysOff` is the offset of the
system-local clock (`datetime.now()` with no tz argument); `tzOff` gives
the fixed minute offset of a named timezone (the offset `pytz` attaches at
`datetime.now(tz)`, which the source then carries through all arithmetic). -/
structure Env where
  nowUTC : Int
  sysOff : Int
  tzOff : String → Int

/-- The naive system-local clock reading, `datetime.now()`. -/
def Env.sysNow (e : Env) : Int := e.nowUTC + e.sysOff

/-! ## Model of `datetime.fromisoformat` (hour/minute projection)

`calculate_next_due_date` only uses the `.hour` and `.minute` of the
parsed value, after `time_str.replace('Z', '+00:00')`.  We model the
grammar `YYYY-MM-DD[ T HH:MM[:SS][±HH:MM] ]` (the subset of ISO-8601
strings this code base produces and consumes); out-of-grammar strings
raise (`none`), matching `ValueError`.  Fractional seconds are not
produced by this repository and are left outside the model. -/

/-- Two decimal digits to their value. -/
def twoDigits? (a b : Char) : Option Nat :=
  if a.isDigit ∧ b.isDigit then some ((a.toNat - 48) * 10 + (b.toNat - 48)) else none

/-- Recognise an optional trailing UTC-offset suffix `±HH:MM`. -/
def isoOffsetTail (l : List Char) : Bool :=
  match l with
  | [] => true
  | s :: h1 :: h2 :: ':' :: m1 :: m2 :: [] =>
      (s = '+' ∨ s = '-') ∧ h1.isDigit ∧ h2.isDigit ∧ m1.isDigit ∧ m2.isDigit
  | _ => false

/-- Recognise an optional `:SS` seconds field followed by an offset tail. -/
def isoSecondsTail (l : List Char) : Bool :=
  match l with
  | ':' :: s1 :: s2 :: rest =>
      s1.isDigit ∧ s2.isDigit ∧ digitsVal [s1, s2] ≤ 59 ∧ isoOffsetTail rest
  | rest => isoOffsetTail rest

/-- Hour and minute of `datetime.fromisoformat (s.replace('Z', '+00:00'))`,
or `none` when that call raises `ValueError`. -/
def fromisoHM? (s0 : String) : Option (Nat × Nat) :=
  let s := replaceZ s0
  match s.data with
  | [y1, y2, y3, y4, '-', a1, a2, '-', b1, b2] =>
      if y1.isDigit ∧ y2.isDigit ∧ y3.isDigit ∧ y4.isDigit ∧
         a1.isDigit ∧ a2.isDigit ∧ b1.isDigit ∧ b2.isDigit ∧
         1 ≤ digitsVal [a1, a2] ∧ digitsVal [a1, a2] ≤ 12 ∧
         1 ≤ digitsVal [b1, b2] ∧ digitsVal [b1, b2] ≤ 31 then
        some (0, 0)
      else none
  | y1 :: y2 :: y3 :: y4 :: '-' :: a1 :: a2 :: '-' :: b1 :: b2 :: sep ::
      h1 :: h2 :: ':' :: m1 :: m2 :: rest =>
      if y1.isDigit ∧ y2.isDigit ∧ y3.isDigit ∧ y4.isDigit ∧
         a1.isDigit ∧ a2.isDigit ∧ b1.isDigit ∧ b2.isDigit ∧
         1 ≤ digitsVal [a1, a2] ∧ digitsVal [a1, a2] ≤ 12 ∧
         1 ≤ digitsVal [b1, b2] ∧ digitsVal [b1, b2] ≤ 31 ∧
         (sep = 'T' ∨ sep = ' ') ∧
         h1.isDigit ∧ h2.isDigit ∧ digitsVal [h1, h2] ≤ 23 ∧
         m1.isDigit ∧ m2.isDigit ∧ digitsVal [m1, m2] ≤ 59 ∧
         isoSecondsTail rest then
        some (digitsVal [h1, h2], digitsVal [m1, m2])
      else none
  | _ => none

/-! ## Frequency metadata (API format and import-file format) -/

/-- Normalized frequency metadata (the `api_metadata` dict produced by
`ChoreImporter.transform_frequency_metadata`); absent keys are `none`. -/
structure FreqMeta where
  days : Option (List String) := none
  unit : Option String := none
  timezone : Option String := none
  weekPattern : Option String := none
  time : Option String := none
  durationMinutes : Option Int := none
deriving Repr, DecidableEq

/-- The `frequencyMetadata_json` dict of an import-file record; absent
keys are `none`. -/
structure FreqMetaJson where
  daysOfWeek : Option (List String) := none
  dueTime : Option String := none
  durationMinutes : Option Int := none
deriving Repr, DecidableEq

/-- The `day_map` dict of `calculate_next_due_date` with its `.get(d, 0)`
default: full lowercase day name to Python weekday number (Monday = 0). -/
def dayNameToNum (s : String) : Int :=
  if s = "monday" then 0
  else if s = "tuesday" then 1
  else if s = "wednesday" then 2
  else if s = "thursday" then 3
  else if s = "friday" then 4
  else if s = "saturday" then 5
  else if s = "sunday" then 6
  else 0

/-- The seven canonical lowercase weekday names. -/
def weekdayNames : List String :=
  ["monday", "tuesday", "wednesday", "thursday", "friday", "saturday", "sunday"]

/-- Lines 266-282 of `calculate_next_due_date` (`days_of_the_week`
branch): resolve target hour and minute.  An empty or absent `time` gives
noon; a non-empty `time` is parsed with `fromisoformat` and on failure the
bare `except:` falls back to `int`-parsing the legacy `dueTime` field
(default `"12:00"`), which itself raises (`.error`) on a malformed value
(`int(...)` `ValueError`, or `IndexError` when there is no `:`). -/
def resolveTimeDOW (time? : Option String) (dueTime? : Option String) :
    Except Unit (Int × Int) :=
  let timeStr := time?.getD ""
  if timeStr = "" then .ok (12, 0)
  else
    match fromisoHM? timeStr with
    | some (h, m) => .ok ((h : Int), (m : Int))
    | none =>
        let dueTime := dueTime?.getD "12:00"
        let parts := pySplitChar ':' dueTime
        match (parts.get? 0).bind pyInt? with
        | none => .error ()
        | some h =>
            match (parts.get? 1).bind pyInt? with
            | none => .error ()
            | some m => .ok (h, m)

/-- Lines 308-320 of `calculate_next_due_date` (`daily` branch): resolve
target hour and minute; here the `except:` handler falls back directly to
noon, so this resolution never raises. -/
def resolveTimeDaily (time? : Option String) : Int × Int :=
  let timeStr := time?.getD ""
  if timeStr = "" then (12, 0)
  else
    match fromisoHM? timeStr with
    | some (h, m) => ((h : Int), (m : Int))
    | none => (12, 0)

/-- A value returned by `calculate_next_due_date`.  `naiveZ t` models
`(datetime.now() + timedelta(days := 1)).isoformat() + "Z"`: the naive
system-local timestamp `t` serialized with a UTC marker.  `utc t` models
`dt.astimezone(pytz.UTC).isoformat().replace('+00:00', 'Z')`: the true
UTC instant `t` in minutes. -/
inductive Due where
  | naiveZ (t : Int)
  | utc (t : Int)
deriving Repr, DecidableEq

/-- Shallow embedding of `ChoreImporter.calculate_next_due_date`
(scripts/import_chores.py lines 233-330). -/
def calculate_next_due_date (env : Env) (frequency_type : String)
    (freq_metadata : FreqMeta) (freq_metadata_json : FreqMetaJson) :
    Except Unit Due :=
  if frequency_type = "once" then
    .ok (.naiveZ (env.sysNow + 1440))
  else if frequency_type = "days_of_the_week" then
    let timezone := freq_metadata.timezone.getD "America/New_York"
    let off := env.tzOff timezone
    let now := env.nowUTC + off
    let days := freq_metadata.days.getD []
    if days = [] then
      .ok (.naiveZ (env.sysNow + 1440))
    else
      let first_day := days.headD ""
      let target_weekday := dayNameToNum first_day
      match resolveTimeDOW freq_metadata.time freq_metadata_json.dueTime with
      | .error e => .error e
      | .ok (target_hour, target_minute) =>
          let current_weekday := weekdayOf now
          let days_ahead := (target_weekday - current_weekday).emod 7
          let stepped : Except Unit Int :=
            if days_ahead = 0 then
              match replaceHM now target_hour target_minute with
              | .error e => .error e
              | .ok target_time => .ok (if target_time ≤ now then 7 else 0)
            else .ok days_ahead
          match stepped with
          | .error e => .error e
          | .ok days_ahead2 =>
              match replaceHM (now + days_ahead2 * 1440) target_hour target_minute with
              | .error e => .error e
              | .ok next_due => .ok (.utc (next_due - off))
  else if frequency_type = "daily" then
    let timezone := freq_metadata.timezone.getD "America/New_York"
    let off := env.tzOff timezone
    let now := env.nowUTC + off
    let (target_hour, target_minute) := resolveTimeDaily freq_metadata.time
    match replaceHM (now + 1440) target_hour target_minute with
    | .error e => .error e
    | .ok next_due => .ok (.utc (next_due - off))
  else
    .ok (.naiveZ (env.sysNow + 1440))

/-! ## models.py: the `ChoreCreate` pydantic validators -/

/-- The character filter of `ChoreCreate.validate_name` /
`validate_description`: keep characters with code point at least 32, plus
newline, carriage return and tab. -/
def sanitizeChars (s : String) : String :=
  String.mk (s.data.filter (fun char => 32 ≤ char.toNat ∨ char ∈ ['\n', '\r', '\t']))

/-- Shallow embedding of `ChoreCreate.validate_name`
(src/donetick_mcp/models.py lines 124-132).  Python truthiness of a
string is non-emptiness. -/
def validate_name (v : String) : Except String String :=
  if v = "" ∨ pyStrip v = "" then
    .error "Chore name cannot be empty or whitespace only"
  else
    .ok (pyStrip (sanitizeChars v))

/-- The `valid_types` list of `ChoreCreate.validate_frequency_type`. -/
def valid_types : List String :=
  ["once", "daily", "weekly", "monthly", "yearly", "interval_based"]

/-- Shallow embedding of `ChoreCreate.validate_frequency_type`
(src/donetick_mcp/models.py lines 168-179). -/
def validate_frequency_type (v : Option String) : Except String String :=
  match v with
  | none => .ok "once"
  | some s =>
      if pyLower s ∈ valid_types then .ok (pyLower s)
      else .error "FrequencyType must be one of: once, daily, weekly, monthly, yearly, interval_based"

/-- The names of the fields declared on `ChoreCreate`
(src/donetick_mcp/models.py lines 29-122). -/
def choreCreateFieldNames : List String :=
  ["Name", "Description", "DueDate", "CreatedBy", "FrequencyType", "Frequency",
   "FrequencyMetadata", "IsRolling", "AssignedTo", "Assignees", "AssignStrategy",
   "Notification", "NotificationMetadata", "Priority", "Labels", "LabelsV2",
   "IsActive", "IsPrivate", "Points", "SubTasks", "ThingChore"]

/-- The `ChoreCreate` fields declared without a default (`Field(...)`):
only `Name`. -/
def choreCreateRequiredFieldNames : List String := ["Name"]

/-- Pydantic-v2 construction of `ChoreCreate` from keyword arguments,
reduced to what decides success: with the default model config, keyword
names are matched against field names case-sensitively, unknown keywords
are ignored (`extra='ignore'`), and a required field with no matching
keyword makes validation fail. -/
def choreCreateInit (providedKeys : List String) : Except String Unit :=
  match choreCreateRequiredFieldNames.filter (fun f => f ∉ providedKeys) with
  | [] => .ok ()
  | missing => .error (String.intercalate ", " missing ++ ": Field required")

/-- The keyword-argument names of the `ChoreCreate(...)` call in
`ChoreImporter.parse_chore` (scripts/import_chores.py lines 368-390). -/
def importCallKwargKeys : List String :=
  ["name", "description", "dueDate", "frequencyType", "frequency",
   "frequencyMetadata", "isRolling", "assignedTo", "assignees", "assignStrategy",
   "isActive", "notification", "notificationMetadata", "labels", "labelsV2",
   "priority", "requireApproval", "isPrivate", "completionWindow", "points",
   "subTasks"]

/-! ## Civil-date rendering (for `dt.isoformat()` in the transformer) -/

/-- Days between 1970-01-01 and the model epoch 2001-01-01 (a Monday). -/
def epochShiftDays : Int := 11323

/-- Civil date (year, month, day) from a day count since 1970-01-01
(Howard Hinnant's `civil_from_days`; `Int.ediv` is floor division for the
positive divisors used). -/
def civilFromDays (z0 : Int) : Int × Int × Int :=
  let z := z0 + 719468
  let era := z.ediv 146097
  let doe := z - era * 146097
  let yoe := (doe - doe.ediv 1460 + doe.ediv 36524 - doe.ediv 146096).ediv 365
  let y := yoe + era * 400
  let doy := doe - (365 * yoe + yoe.ediv 4 - yoe.ediv 100)
  let mp := (5 * doy + 2).ediv 153
  let d := doy - (153 * mp + 2).ediv 5 + 1
  let m := mp + (if mp < 10 then 3 else -9)
  (y + (if m ≤ 2 then 1 else 0), m, d)

/-- Zero-pad a (nonnegative) integer to two digits. -/
def pad2 (n : Int) : String :=
  if n < 10 then "0" ++ toString n else toString n

/-- Render a local minute count with a fixed minute offset as Python's
`dt.isoformat()` does for an offset-aware datetime with zero seconds:
`YYYY-MM-DDTHH:MM:SS±HH:MM`. -/
def isoformatLocal (t : Int) (off : Int) : String :=
  let (y, mo, d) := civilFromDays (t.ediv 1440 + epochShiftDays)
  let minuteOfDay := t.emod 1440
  let offAbs := if off < 0 then -off else off
  let offSign := if off < 0 then "-" else "+"
  toString y ++ "-" ++ pad2 mo ++ "-" ++ pad2 d ++ "T" ++
    pad2 (minuteOfDay.ediv 60) ++ ":" ++ pad2 (minuteOfDay.emod 60) ++ ":00" ++
    offSign ++ pad2 (offAbs.ediv 60) ++ ":" ++ pad2 (offAbs.emod 60)

/-! ## ChoreImporter transform functions -/

/-- The `day_map` dict of `transform_frequency_metadata`; `day_map[d]`
raises `KeyError` (`none`) for other keys. -/
def shortDayLookup (d : String) : Option String :=
  if d = "Mon" then some "monday"
  else if d = "Tue" then some "tuesday"
  else if d = "Wed" then some "wednesday"
  else if d = "Thu" then some "thursday"
  else if d = "Fri" then some "friday"
  else if d = "Sat" then some "saturday"
  else if d = "Sun" then some "sunday"
  else none

/-- Shallow embedding of `ChoreImporter.transform_frequency_metadata`
(scripts/import_chores.py lines 114-163).  Raised exceptions (`KeyError`
on an unknown short day name, `ValueError`/`IndexError` while parsing
`dueTime`, out-of-range `replace`) are `.error`. -/
def transform_frequency_metadata (env : Env) (metadata : FreqMetaJson)
    (timezone : String := "America/New_York") : Except Unit FreqMeta :=
  if metadata = {} then .ok {}
  else
    let step1 : Except Unit FreqMeta :=
      match metadata.daysOfWeek with
      | none => .ok {}
      | some ds =>
          match ds.mapM shortDayLookup with
          | none => .error ()
          | some mapped =>
              .ok { days := some mapped, unit := some "days",
                    timezone := some timezone, weekPattern := some "every_week" }
    match step1 with
    | .error e => .error e
    | .ok meta1 =>
        let step2 : Except Unit FreqMeta :=
          match metadata.dueTime with
          | none => .ok meta1
          | some dueTime =>
              let time_parts := pySplitChar ':' dueTime
              match (time_parts.get? 0).bind pyInt? with
              | none => .error ()
              | some hour =>
                  match (time_parts.get? 1).bind pyInt? with
                  | none => .error ()
                  | some minute =>
                      let tzo := env.tzOff timezone
                      let now := env.nowUTC + tzo
                      match replaceHM now hour minute with
                      | .error e => .error e
                      | .ok dt => .ok { meta1 with time := some (isoformatLocal dt tzo) }
        match step2 with
        | .error e => .error e
        | .ok meta2 =>
            .ok (match metadata.durationMinutes with
                 | none => meta2
                 | some n => { meta2 with durationMinutes := some n })

/-- The `notificationMetadata_json` dict of an import-file record. -/
structure NotifMetaIn where
  offsetMinutes : Option Int := none
  remindAtDueTime : Option Bool := none
deriving Repr, DecidableEq

/-- A notification template entry `\x7b"value": v, "unit": "m"\x7d`. -/
structure Template where
  value : Int
  unit : String
deriving Repr, DecidableEq

/-- The dict returned by `transform_notification_metadata`: `none` models
the empty Python dict `\x7b\x7d` (no `templates` key); `some ts` models
`\x7b"templates": ts\x7d`.  The function always returns a dict, never
Python `None`. -/
abbrev NotifOut := Option (List Template)

/-- Shallow embedding of `ChoreImporter.transform_notification_metadata`
(scripts/import_chores.py lines 165-190). -/
def transform_notification_metadata (metadata : NotifMetaIn) : NotifOut :=
  if metadata = {} then none
  else
    let templates :=
      (match metadata.offsetMinutes with
       | some offset => if offset ≠ 0 then [({ value := offset, unit := "m" } : Template)] else []
       | none => []) ++
      (if metadata.remindAtDueTime.getD false then [({ value := 0, unit := "m" } : Template)] else [])
    if templates ≠ [] then some templates else none

/-- The templates carried by a `transform_notification_metadata` result. -/
def notifTemplates (out : NotifOut) : List Template := out.getD []

/-- A sub-task entry as built by `transform_subtasks`. -/
structure SubTask where
  orderId : Nat
  name : String
  completedAt : Option Int := none
  completedBy : Int := 0
  parentId : Option Int := none
deriving Repr, DecidableEq

/-- Shallow embedding of `ChoreImporter.transform_subtasks`
(scripts/import_chores.py lines 192-206). -/
def transform_subtasks (subtasks : List String) : List SubTask :=
  subtasks.enum.map (fun p => { orderId := p.1, name := p.2 })

/-- An assignee entry `\x7b"userId": uid\x7d`. -/
structure Assignee where
  userId : Int
deriving Repr, DecidableEq

/-- Dict lookup in an association list (`dict.get`). -/
def lookupStr (m : List (String × Int)) (k : String) : Option Int :=
  (m.find? (fun p => p.1 = k)).map (fun p => p.2)

/-- Shallow embedding of `ChoreImporter.map_assignees`
(scripts/import_chores.py lines 208-231).  Note `if user_id:` is Python
truthiness, so a mapped ID of 0 is dropped like an unknown username. -/
def map_assignees (username_to_id : List (String × Int)) (usernames : List String) :
    Option Int × List Assignee :=
  if usernames = [] then (none, [])
  else
    let user_ids := usernames.filterMap (fun username =>
      match lookupStr username_to_id username with
      | some uid => if uid ≠ 0 then some uid else none
      | none => none)
    if user_ids = [] then (none, [])
    else (some (user_ids.headD 0), user_ids.map (fun uid => ({ userId := uid } : Assignee)))

/-- A labelsV2 entry `\x7b"id": label_id\x7d`. -/
structure LabelRef where
  id : Int
deriving Repr, DecidableEq

/-- Shallow embedding of `ChoreImporter.map_labels`
(scripts/import_chores.py lines 95-112); `if label_id:` truthiness drops
an ID of 0. -/
def map_labels (label_name_to_id : List (String × Int)) (label_names : Option (List String)) :
    List LabelRef :=
  match label_names with
  | none => []
  | some names =>
      names.filterMap (fun label_name =>
        match lookupStr label_name_to_id (pyStrip (pyLower label_name)) with
        | some label_id => if label_id ≠ 0 then some ({ id := label_id } : LabelRef) else none
        | none => none)

/-! ## parse_chore and the batch import loop -/

/-- An entry of the import file's `chores` array; absent keys are `none`. -/
structure ImportRecord where
  name? : Option String := none
  descriptionHtml : Option String := none
  frequencyType? : Option String := none
  frequency? : Option Int := none
  fmJson : FreqMetaJson := {}
  notifJson : NotifMetaIn := {}
  subTasksJson : List String := []
  assigneesUsernames : List String := []
  labels? : Option (List String) := none
  isRolling? : Option Bool := none
  notification? : Option Bool := none
  priority? : Option Int := none
  assignStrategy? : Option String := none
deriving Repr, DecidableEq

/-- Lines 341-343 of `parse_chore`: the frequency type used, overridden
to `days_of_the_week` whenever `daysOfWeek` is truthy (present and
non-empty). -/
def derivedFrequencyType (chore_data : ImportRecord) : String :=
  if chore_data.fmJson.daysOfWeek.getD [] ≠ [] then "days_of_the_week"
  else chore_data.frequencyType?.getD "once"

/-- The keyword arguments assembled by the `ChoreCreate(...)` call of
`parse_chore` (values of the constant keywords omitted). -/
structure ChoreKwargs where
  name : String
  description : Option String
  dueDate : Due
  frequencyType : String
  frequency : Int
  frequencyMetadata : Option FreqMeta
  isRolling : Bool
  assignedTo : Option Int
  assignees : Option (List Assignee)
  assignStrategy : String
  notification : Bool
  notificationMetadata : NotifOut
  labels : Option (List String)
  labelsV2 : Option (List LabelRef)
  priority : Int
  subTasks : Option (List SubTask)
deriving Repr, DecidableEq

/-- Shallow embedding of `ChoreImporter.parse_chore`
(scripts/import_chores.py lines 332-396).  Every exception raised in the
body — including the `KeyError` for a missing `name` and the pydantic
`ValidationError` of the `ChoreCreate(...)` call, whose keyword names are
`importCallKwargKeys` while the model requires the field `Name` — is
caught by the surrounding `except` and yields `None`. -/
def parse_chore (env : Env) (username_to_id label_name_to_id : List (String × Int))
    (chore_data : ImportRecord) : Option ChoreKwargs :=
  match transform_frequency_metadata env chore_data.fmJson with
  | .error _ => none
  | .ok freq_metadata =>
      let frequency_type := derivedFrequencyType chore_data
      match calculate_next_due_date env frequency_type freq_metadata chore_data.fmJson with
      | .error _ => none
      | .ok due_date =>
          let notif_metadata := transform_notification_metadata chore_data.notifJson
          let subtasks := transform_subtasks chore_data.subTasksJson
          let (assigned_to, assignees) := map_assignees username_to_id chore_data.assigneesUsernames
          let labels_v2 := map_labels label_name_to_id chore_data.labels?
          match chore_data.name? with
          | none => none
          | some nm =>
              match choreCreateInit importCallKwargKeys with
              | .error _ => none
              | .ok _ => some {
                  name := nm,
                  description := chore_data.descriptionHtml,
                  dueDate := due_date,
                  frequencyType := frequency_type,
                  frequency := chore_data.frequency?.getD 1,
                  frequencyMetadata := if freq_metadata ≠ {} then some freq_metadata else none,
                  isRolling := chore_data.isRolling?.getD false,
                  assignedTo := assigned_to,
                  assignees := if assignees ≠ [] then some assignees else none,
                  assignStrategy := chore_data.assignStrategy?.getD "least_completed",
                  notification := chore_data.notification?.getD false,
                  notificationMetadata := notif_metadata,
                  labels := chore_data.labels?,
                  labelsV2 := if labels_v2 ≠ [] then some labels_v2 else none,
                  priority := chore_data.priority?.getD 0,
                  subTasks := if subtasks ≠ [] then some subtasks else none }

/-- Accumulated state of a batch import run (`created_chores`,
`failed_chores` on `ChoreImporter`). -/
structure ImportState where
  created : List Int := []
  failed : List (String × String) := []
deriving Repr, DecidableEq

/-- Model of `chore_data.get("name", "Unknown")`. -/
def recDisplayName (chore_data : ImportRecord) : String :=
  chore_data.name?.getD "Unknown"

/-- Shallow embedding of `ChoreImporter.import_chore`
(scripts/import_chores.py lines 398-428).  The network call
`client.create_chore` is the oracle `create_chore`; any exception it
raises is recorded as a per-record failure. -/
def import_chore (env : Env) (username_to_id label_name_to_id : List (String × Int))
    (create_chore : ChoreKwargs → Except String Int) (st : ImportState)
    (chore_data : ImportRecord) : ImportState :=
  match parse_chore env username_to_id label_name_to_id chore_data with
  | none => { st with failed := st.failed ++ [(recDisplayName chore_data, "Failed to parse")] }
  | some chore =>
      match create_chore chore with
      | .ok newId => { st with created := st.created ++ [newId] }
      | .error e => { st with failed := st.failed ++ [(recDisplayName chore_data, e)] }

/-- The record loop of `ChoreImporter.import_from_file`
(scripts/import_chores.py lines 460-461): each record is imported in
order, every record exactly once. -/
def import_many (env : Env) (username_to_id label_name_to_id : List (String × Int))
    (create_chore : ChoreKwargs → Except String Int) :
    List ImportRecord → ImportState → ImportState
  | [], st => st
  | chore_data :: rest, st =>
      import_many env username_to_id label_name_to_id create_chore rest
        (import_chore env username_to_id label_name_to_id create_chore st chore_data)

/-- The final summary of `import_from_file` (lines 466-490): total
records in the batch, successfully created count, failed count. -/
def import_summary (env : Env) (username_to_id label_name_to_id : List (String × Int))
    (create_chore : ChoreKwargs → Except String Int) (chores_data : List ImportRecord) :
    Nat × Nat × Nat :=
  let st := import_many env username_to_id label_name_to_id create_chore chores_data {}
  (chores_data.length, st.created.length, st.failed.length)

/-! ## Comment stripping and JSON parsing in `import_from_file`

`import_from_file` (scripts/import_chores.py lines 434-446) preprocesses
the file text with `re.sub(r'/\x2a.\x2a?\x2a/', '', content, flags=re.DOTALL)`
followed by `re.sub(r'//.\x2a?$', '', content, flags=re.MULTILINE)` before
`json.loads`.  The first removes each leftmost-shortest `/\x2a ... \x2a/`
span (newlines included); the second truncates every line at its first
`//`.  Neither is aware of JSON string literals. -/

/-- Skip forward past the next `\x2a/`; `none` when there is none (the
regex then has no match and the text is left unchanged). -/
def dropToBlockClose : List Char → Option (List Char)
  | [] => none
  | '*' :: '/' :: rest => some rest
  | _ :: rest => dropToBlockClose rest

/-- One fuel-bounded pass removing `/\x2a ... \x2a/` spans
(leftmost-shortest, scanning resumes after each removed span). -/
def stripBlockAux : Nat → List Char → List Char
  | 0, l => l
  | _ + 1, [] => []
  | fuel + 1, '/' :: '*' :: rest =>
      (match dropToBlockClose rest with
       | some rest2 => stripBlockAux fuel rest2
       | none => '/' :: '*' :: rest)
  | fuel + 1, c :: rest => c :: stripBlockAux fuel rest

/-- The first `re.sub`: remove `/\x2a ... \x2a/` style comments. -/
def stripBlockComments (s : String) : String :=
  String.mk (stripBlockAux s.data.length s.data)

/-- Truncate one line at its first `//`. -/
def truncAtSlashes : List Char → List Char
  | [] => []
  | '/' :: '/' :: _ => []
  | c :: rest => c :: truncAtSlashes rest

/-- The second `re.sub`: remove `//` style comments to end of line. -/
def stripLineComments (s : String) : String :=
  String.intercalate "\n" ((splitCharList '\n' s.data).map (fun l => String.mk (truncAtSlashes l)))

/-- The full preprocessing applied to the file content before
`json.loads`. -/
def stripComments (s : String) : String :=
  stripLineComments (stripBlockComments s)

/-- A JSON value (the fragment used by the import files: objects, arrays,
strings, integers, booleans, null). -/
inductive Json where
  | nul
  | bool (b : Bool)
  | num (n : Int)
  | str (s : String)
  | arr (xs : List Json)
  | obj (fields : List (String × Json))

/-- JSON insignificant whitespace. -/
def jsonSkipWs (l : List Char) : List Char :=
  l.dropWhile (fun c => c ∈ [' ', '\t', '\n', '\r'])

/-- Parse the body of a JSON string literal after the opening quote:
returns the decoded characters and the rest after the closing quote.
Raw control characters (below 0x20) are rejected, as `json.loads` does
by default; escapes cover what the import files use. -/
def jsonStringBody : List Char → Option (List Char × List Char)
  | [] => none
  | '"' :: rest => some ([], rest)
  | '\\' :: e :: rest =>
      (match
        (if e = '"' then some '"'
         else if e = '\\' then some '\\'
         else if e = '/' then some '/'
         else if e = 'n' then some '\n'
         else if e = 't' then some '\t'
         else if e = 'r' then some '\r'
         else none) with
       | none => none
       | some c =>
           match jsonStringBody rest with
           | none => none
           | some (cs, rem) => some (c :: cs, rem))
  | c :: rest =>
      if c.toNat < 32 then none
      else
        match jsonStringBody rest with
        | none => none
        | some (cs, rem) => some (c :: cs, rem)

/-- Read a run of decimal digits. -/
def jsonDigits (l : List Char) : List Char × List Char :=
  (l.takeWhile Char.isDigit, l.dropWhile Char.isDigit)

mutual

/-- Fuel-bounded recursive-descent parse of one JSON value. -/
def jsonValue : Nat → List Char → Option (Json × List Char)
  | 0, _ => none
  | fuel + 1, l =>
      match jsonSkipWs l with
      | [] => none
      | c :: rest =>
          if c = '"' then
            match jsonStringBody rest with
            | none => none
            | some (cs, rem) => some (.str (String.mk cs), rem)
          else if c = Char.ofNat 123 then jsonObjFields fuel rest true
          else if c = '[' then jsonArrElems fuel rest true
          else if c = 't' then
            match rest with
            | 'r' :: 'u' :: 'e' :: rem => some (.bool true, rem)
            | _ => none
          else if c = 'f' then
            match rest with
            | 'a' :: 'l' :: 's' :: 'e' :: rem => some (.bool false, rem)
            | _ => none
          else if c = 'n' then
            match rest with
            | 'u' :: 'l' :: 'l' :: rem => some (.nul, rem)
            | _ => none
          else if c = '-' then
            match jsonDigits rest with
            | ([], _) => none
            | (ds, rem) => some (.num (-(digitsVal ds : Int)), rem)
          else if c.isDigit then
            match jsonDigits (c :: rest) with
            | ([], _) => none
            | (ds, rem) => some (.num (digitsVal ds : Int), rem)
          else none

/-- Parse the members of a JSON object after the opening brace; `first`
is true before any member has been read. -/
def jsonObjFields : Nat → List Char → Bool → Option (Json × List Char)
  | 0, _, _ => none
  | fuel + 1, l, first =>
      match jsonSkipWs l with
      | [] => none
      | c :: rest =>
          if c = Char.ofNat 125 ∧ first then some (.obj [], rest)
          else if c = '"' then
            match jsonStringBody rest with
            | none => none
            | some (cs, rem) =>
                match jsonSkipWs rem with
                | ':' :: rem2 =>
                    (match jsonValue fuel rem2 with
                     | none => none
                     | some (v, rem3) =>
                         match jsonSkipWs rem3 with
                         | ',' :: rem4 =>
                             (match jsonObjFields fuel rem4 false with
                              | some (.obj fields, rem5) =>
                                  some (.obj ((String.mk cs, v) :: fields), rem5)
                              | _ => none)
                         | d :: rem4 =>
                             if d = Char.ofNat 125 then
                               some (.obj [(String.mk cs, v)], rem4)
                             else none
                         | [] => none)
                | _ => none
          else none

/-- Parse the elements of a JSON array after the opening bracket. -/
def jsonArrElems : Nat → List Char → Bool → Option (Json × List Char)
  | 0, _, _ => none
  | fuel + 1, l, first =>
      match jsonSkipWs l with
      | [] => none
      | ']' :: rest =>
          if first then some (.arr [], rest) else none
      | l2 =>
          match jsonValue fuel l2 with
          | none => none
          | some (v, rem) =>
              match jsonSkipWs rem with
              | ',' :: rem2 =>
                  (match jsonArrElems fuel rem2 false with
                   | some (.arr xs, rem3) => some (.arr (v :: xs), rem3)
                   | _ => none)
              | ']' :: rem2 => some (.arr [v], rem2)
              | _ => none

end

/-- Model of `json.loads` on the JSON fragment used by the import files:
parse one value and require only whitespace to remain; `none` models a
raised `json.JSONDecodeError`. -/
def jsonLoads (s : String) : Option Json :=
  match jsonValue (s.length + 8) s.data with
  | some (j, rest) => if jsonSkipWs rest = [] then some j else none
  | none => none

/-! ## Concrete fixtures used by the concrete-input theorems -/

def fmFriday : FreqMeta := { days := some ["friday"], time := some "2001-01-08T09:30:00+00:00" }

def fmSunday : FreqMeta := { days := some ["sunday"], time := some "2001-01-08T09:30:00+00:00" }

def fmGarbage : FreqMeta := { days := some ["monday"], time := some "garbage" }

def aliceMap : List (String × Int) := [("Alice", 7)]

def trashRecord : ImportRecord :=
  { name? := some "Trash", frequencyType? := some "once", assigneesUsernames := ["Alice"] }

def recA : ImportRecord := { name? := some "A" }

def recB : ImportRecord := { name? := some "B" }

/-- Whether a character list contains the two-character sequence `//`. -/
def containsDoubleSlash : List Char → Bool
  | [] => false
  | '/' :: '/' :: _ => true
  | _ :: rest => containsDoubleSlash rest

/-- A syntactically valid import file whose string values contain `//`
and a block-comment-like span straddling three string literals. -/
def importFileStraddle : String :=
  "\x7b\"chores\": [\x7b\"name\": \"a/*\", \"x\": \"//\", \"y\": \"*/b\"\x7d]\x7d"

/-- A syntactically valid import file whose `name` value contains a URL
with `//`. -/
def importFileUrl : String :=
  "\x7b\"chores\": [\x7b\"name\": \"http://e\"\x7d]\x7d"

/-! ## Helper lemmas -/

/-- A concrete run environment used by the concrete-input theorems:
current instant 20000 minutes, system clock 3 minutes ahead of UTC, every
timezone at offset -240 minutes. -/
def envW : Env := { nowUTC := 20000, sysOff := 3, tzOff := fun _ => -240 }

theorem dayNameToNum_range (s : String) : 0 ≤ dayNameToNum s ∧ dayNameToNum s ≤ 6 := by
  unfold dayNameToNum
  split_ifs <;> norm_num

theorem replaceHM_ok (t : Int) {h m : Int}
    (hh0 : 0 ≤ h) (hh : h ≤ 23) (hm0 : 0 ≤ m) (hm : m ≤ 59) :
    replaceHM t h m = .ok (t.ediv 1440 * 1440 + h * 60 + m) := by
  unfold replaceHM
  rw [if_pos ⟨hh0, hh, hm0, hm⟩]

theorem fromisoHM_bounds {s : String} {h m : Nat} (hp : fromisoHM? s = some (h, m)) :
    h ≤ 23 ∧ m ≤ 59 := by
  simp only [fromisoHM?] at hp
  split at hp
  · split at hp
    · injection hp with hp
      injection hp with h1 h2
      omega
    · exact absurd hp (by simp)
  · split at hp
    · rename_i hguard
      injection hp with hp
      injection hp with h1 h2
      subst h1; subst h2
      refine ⟨?_, ?_⟩ <;> omega
    · exact absurd hp (by simp)
  · exact absurd hp (by simp)

/-- Closed form of the `days_of_the_week` branch of
`calculate_next_due_date` once the weekday list is non-empty and the
time-of-day resolution succeeded with in-range values. -/
theorem dow_eval (env : Env) (fm : FreqMeta) (fj : FreqMetaJson)
    (d : String) (rest : List String) (h m : Int)
    (hdays : fm.days = some (d :: rest))
    (hres : resolveTimeDOW fm.time fj.dueTime = .ok (h, m))
    (hh0 : 0 ≤ h) (hh : h ≤ 23) (hm0 : 0 ≤ m) (hm : m ≤ 59) :
    calculate_next_due_date env "days_of_the_week" fm fj =
      (let off := env.tzOff (fm.timezone.getD "America/New_York")
       let now := env.nowUTC + off
       let da := (dayNameToNum d - weekdayOf now).emod 7
       let da2 := if da = 0 then (if now.ediv 1440 * 1440 + h * 60 + m ≤ now then 7 else 0) else da
       .ok (.utc ((now + da2 * 1440).ediv 1440 * 1440 + h * 60 + m - off))) := by
  unfold calculate_next_due_date
  rw [if_neg (by decide : ¬("days_of_the_week" : String) = "once")]
  rw [if_pos (rfl : ("days_of_the_week" : String) = "days_of_the_week")]
  rw [hdays]
  simp only [Option.getD_some, List.headD_cons, hres]
  rw [if_neg (List.cons_ne_nil d rest)]
  by_cases hda : (dayNameToNum d - weekdayOf (env.nowUTC +
      env.tzOff (fm.timezone.getD "America/New_York"))).emod 7 = 0
  · rw [if_pos hda, if_pos hda, replaceHM_ok _ hh0 hh hm0 hm]
    dsimp only
    by_cases hcmp : (env.nowUTC + env.tzOff (fm.timezone.getD "America/New_York")).ediv 1440 * 1440
        + h * 60 + m ≤ env.nowUTC + env.tzOff (fm.timezone.getD "America/New_York")
    · rw [if_pos hcmp, replaceHM_ok _ hh0 hh hm0 hm]
    · rw [if_neg hcmp, replaceHM_ok _ hh0 hh hm0 hm]
  · rw [if_neg hda, if_neg hda]
    dsimp only
    rw [replaceHM_ok _ hh0 hh hm0 hm]

theorem edivFacts (a : Int) {b : Int} (hb : 0 < b) :
    b * (a.ediv b) + a.emod b = a ∧ 0 ≤ a.emod b ∧ a.emod b < b :=
  ⟨Int.ediv_add_emod a b, Int.emod_nonneg a (by omega), Int.emod_lt_of_pos a hb⟩

/-- C1: for every valid weekday set, time-of-day and timezone, the
`days_of_the_week` branch of `calculate_next_due_date` returns (the UTC
rendering of) a local instant `tLoc` that is strictly later than the
current time in the target timezone and whose weekday is one of the
supplied weekdays. -/
theorem dow_next_due_strictly_future_and_on_supplied_weekday
    (env : Env) (fm : FreqMeta) (fj : FreqMetaJson)
    (d : String) (rest : List String) (h m : Int)
    (hdays : fm.days = some (d :: rest))
    (hvalid : ∀ x ∈ d :: rest, x ∈ weekdayNames)
    (hres : resolveTimeDOW fm.time fj.dueTime = .ok (h, m))
    (hh0 : 0 ≤ h) (hh : h ≤ 23) (hm0 : 0 ≤ m) (hm : m ≤ 59) :
    ∃ tLoc : Int,
      calculate_next_due_date env "days_of_the_week" fm fj =
        .ok (.utc (tLoc - env.tzOff (fm.timezone.getD "America/New_York"))) ∧
      env.nowUTC + env.tzOff (fm.timezone.getD "America/New_York") < tLoc ∧
      weekdayOf tLoc ∈ (d :: rest).map dayNameToNum := by
  obtain ⟨ht0, ht6⟩ := dayNameToNum_range d
  rw [dow_eval env fm fj d rest h m hdays hres hh0 hh hm0 hm]
  dsimp only
  set off := env.tzOff (fm.timezone.getD "America/New_York") with hoff
  set N := env.nowUTC + off with hNdef
  simp only [weekdayOf]
  have A := edivFacts N (by norm_num : (0:Int) < 1440)
  have E := edivFacts (N.ediv 1440) (by norm_num : (0:Int) < 7)
  have F := edivFacts (dayNameToNum d - (N.ediv 1440).emod 7) (by norm_num : (0:Int) < 7)
  by_cases hda : (dayNameToNum d - (N.ediv 1440).emod 7).emod 7 = 0
  · by_cases hcmp : N.ediv 1440 * 1440 + h * 60 + m ≤ N
    · rw [if_pos hda, if_pos hcmp]
      refine ⟨_, rfl, ?_, List.mem_map.mpr ⟨d, List.mem_cons_self d rest, ?_⟩⟩
      · have B := edivFacts (N + 7 * 1440) (by norm_num : (0:Int) < 1440)
        omega
      · have B := edivFacts (N + 7 * 1440) (by norm_num : (0:Int) < 1440)
        have C := edivFacts ((N + 7 * 1440).ediv 1440 * 1440 + h * 60 + m)
          (by norm_num : (0:Int) < 1440)
        have D := edivFacts (((N + 7 * 1440).ediv 1440 * 1440 + h * 60 + m).ediv 1440)
          (by norm_num : (0:Int) < 7)
        omega
    · rw [if_pos hda, if_neg hcmp]
      refine ⟨_, rfl, ?_, List.mem_map.mpr ⟨d, List.mem_cons_self d rest, ?_⟩⟩
      · have B := edivFacts (N + 0 * 1440) (by norm_num : (0:Int) < 1440)
        omega
      · have B := edivFacts (N + 0 * 1440) (by norm_num : (0:Int) < 1440)
        have C := edivFacts ((N + 0 * 1440).ediv 1440 * 1440 + h * 60 + m)
          (by norm_num : (0:Int) < 1440)
        have D := edivFacts (((N + 0 * 1440).ediv 1440 * 1440 + h * 60 + m).ediv 1440)
          (by norm_num : (0:Int) < 7)
        omega
  · rw [if_neg hda]
    refine ⟨_, rfl, ?_, List.mem_map.mpr ⟨d, List.mem_cons_self d rest, ?_⟩⟩
    · have B := edivFacts (N + (dayNameToNum d - (N.ediv 1440).emod 7).emod 7 * 1440)
        (by norm_num : (0:Int) < 1440)
      omega
    · have B := edivFacts (N + (dayNameToNum d - (N.ediv 1440).emod 7).emod 7 * 1440)
        (by norm_num : (0:Int) < 1440)
      have C := edivFacts ((N + (dayNameToNum d - (N.ediv 1440).emod 7).emod 7 * 1440).ediv 1440
          * 1440 + h * 60 + m) (by norm_num : (0:Int) < 1440)
      have D := edivFacts (((N + (dayNameToNum d - (N.ediv 1440).emod 7).emod 7 * 1440).ediv 1440
          * 1440 + h * 60 + m).ediv 1440) (by norm_num : (0:Int) < 7)
      omega

/-- Witness for C1 at a concrete environment and metadata. -/
theorem dow_witness : ∃ tLoc : Int,
    calculate_next_due_date envW "days_of_the_week" fmFriday {} =
      .ok (.utc (tLoc - envW.tzOff (fmFriday.timezone.getD "America/New_York"))) ∧
    envW.nowUTC + envW.tzOff (fmFriday.timezone.getD "America/New_York") < tLoc ∧
    weekdayOf tLoc ∈ (["friday"] : List String).map dayNameToNum :=
  dow_next_due_strictly_future_and_on_supplied_weekday envW fmFriday {} "friday" [] 9 30
    rfl (by decide) rfl (by decide) (by decide) (by decide) (by decide)

/-- C2: when the target weekday (first of the supplied list) equals the
current weekday in the target timezone, `calculate_next_due_date` returns
exactly 7 days later at the target hour and minute if the target
time-of-day has already passed (`now >= target_time` in the source), and
today at the target hour and minute otherwise. -/
theorem dow_same_weekday_rolls_week_or_today
    (env : Env) (fm : FreqMeta) (fj : FreqMetaJson)
    (d : String) (rest : List String) (h m : Int)
    (hdays : fm.days = some (d :: rest))
    (hres : resolveTimeDOW fm.time fj.dueTime = .ok (h, m))
    (hh0 : 0 ≤ h) (hh : h ≤ 23) (hm0 : 0 ≤ m) (hm : m ≤ 59)
    (htarget : dayNameToNum d =
      weekdayOf (env.nowUTC + env.tzOff (fm.timezone.getD "America/New_York"))) :
    (let off := env.tzOff (fm.timezone.getD "America/New_York")
     let now := env.nowUTC + off
     let todayTarget := now.ediv 1440 * 1440 + h * 60 + m
     (todayTarget ≤ now →
        calculate_next_due_date env "days_of_the_week" fm fj =
          .ok (.utc (todayTarget + 7 * 1440 - off))) ∧
     (now < todayTarget →
        calculate_next_due_date env "days_of_the_week" fm fj =
          .ok (.utc (todayTarget - off)))) := by
  have hda : (dayNameToNum d - weekdayOf (env.nowUTC +
      env.tzOff (fm.timezone.getD "America/New_York"))).emod 7 = 0 := by
    rw [htarget, Int.sub_self]
    decide
  rw [dow_eval env fm fj d rest h m hdays hres hh0 hh hm0 hm]
  dsimp only
  set off := env.tzOff (fm.timezone.getD "America/New_York") with hoff
  set N := env.nowUTC + off with hNdef
  simp only [weekdayOf] at hda ⊢
  constructor
  · intro hcmp
    rw [if_pos hda, if_pos hcmp]
    refine congrArg (fun x => Except.ok (Due.utc x)) ?_
    have A := edivFacts N (by norm_num : (0:Int) < 1440)
    have B := edivFacts (N + 7 * 1440) (by norm_num : (0:Int) < 1440)
    omega
  · intro hlt
    rw [if_pos hda, if_neg (by omega : ¬ N.ediv 1440 * 1440 + h * 60 + m ≤ N)]
    refine congrArg (fun x => Except.ok (Due.utc x)) ?_
    have A := edivFacts N (by norm_num : (0:Int) < 1440)
    have B := edivFacts (N + 0 * 1440) (by norm_num : (0:Int) < 1440)
    omega

/-- Witness for C2 at a concrete environment and metadata. -/
theorem dow_same_weekday_witness :
    calculate_next_due_date envW "days_of_the_week" fmSunday {} =
      .ok (.utc ((envW.nowUTC + envW.tzOff (fmSunday.timezone.getD "America/New_York")).ediv 1440
        * 1440 + 9 * 60 + 30 + 7 * 1440 - envW.tzOff (fmSunday.timezone.getD "America/New_York"))) :=
  (dow_same_weekday_rolls_week_or_today envW fmSunday {} "sunday" [] 9 30
    rfl rfl (by decide) (by decide) (by decide) (by decide) (by decide)).1 (by decide)

theorem resolveTimeDaily_range (time? : Option String) :
    0 ≤ (resolveTimeDaily time?).1 ∧ (resolveTimeDaily time?).1 ≤ 23 ∧
    0 ≤ (resolveTimeDaily time?).2 ∧ (resolveTimeDaily time?).2 ≤ 59 := by
  simp only [resolveTimeDaily]
  by_cases h0 : time?.getD "" = ""
  · rw [if_pos h0]; norm_num
  · rw [if_neg h0]
    cases hfi : fromisoHM? (time?.getD "") with
    | none => norm_num
    | some p =>
        obtain ⟨h, m⟩ := p
        obtain ⟨h1, h2⟩ := fromisoHM_bounds hfi
        refine ⟨?_, ?_, ?_, ?_⟩ <;> simp <;> omega

theorem resolveTimeDOW_dueTime_none_ok (time? : Option String) :
    ∃ h m : Int, resolveTimeDOW time? none = .ok (h, m) ∧
      0 ≤ h ∧ h ≤ 23 ∧ 0 ≤ m ∧ m ≤ 59 := by
  simp only [resolveTimeDOW]
  by_cases h0 : time?.getD "" = ""
  · rw [if_pos h0]
    exact ⟨12, 0, rfl, by norm_num, by norm_num, by norm_num, by norm_num⟩
  · rw [if_neg h0]
    cases hfi : fromisoHM? (time?.getD "") with
    | none =>
        exact ⟨12, 0, rfl, by norm_num, by norm_num, by norm_num, by norm_num⟩
    | some p =>
        obtain ⟨h, m⟩ := p
        obtain ⟨h1, h2⟩ := fromisoHM_bounds hfi
        exact ⟨(h : Int), (m : Int), rfl, by omega, by omega, by omega, by omega⟩

/-- C3 (amended): given `(type, metadata, current time, timezone)`,
`calculate_next_due_date` is a pure total function on the
`days_of_the_week` and `daily` branches whenever the legacy `dueTime`
field is absent: a malformed or empty RFC3339 `time` string never raises
and degrades the time-of-day to 12:00 noon.  (With a malformed `dueTime`
present the `days_of_the_week` branch raises, see the counterexample.) -/
theorem next_due_total_when_duetime_absent (env : Env) (fm : FreqMeta) (fj : FreqMetaJson)
    (hdt : fj.dueTime = none) :
    (∃ d, calculate_next_due_date env "days_of_the_week" fm fj = .ok d) ∧
    (∃ d, calculate_next_due_date env "daily" fm fj = .ok d) ∧
    ((fm.time = none ∨ fromisoHM? (fm.time.getD "") = none) →
      resolveTimeDOW fm.time fj.dueTime = .ok (12, 0) ∧
      resolveTimeDaily fm.time = (12, 0)) := by
  refine ⟨?_, ?_, ?_⟩
  · cases hdays : fm.days with
    | none =>
        unfold calculate_next_due_date
        rw [if_neg (by decide : ¬("days_of_the_week" : String) = "once")]
        rw [if_pos (rfl : ("days_of_the_week" : String) = "days_of_the_week")]
        rw [hdays]
        exact ⟨_, rfl⟩
    | some l =>
        cases l with
        | nil =>
            unfold calculate_next_due_date
            rw [if_neg (by decide : ¬("days_of_the_week" : String) = "once")]
            rw [if_pos (rfl : ("days_of_the_week" : String) = "days_of_the_week")]
            rw [hdays]
            exact ⟨_, rfl⟩
        | cons d rest =>
            obtain ⟨h, m, hres, hh0, hh, hm0, hm⟩ := resolveTimeDOW_dueTime_none_ok fm.time
            rw [← hdt] at hres
            rw [dow_eval env fm fj d rest h m hdays hres hh0 hh hm0 hm]
            exact ⟨_, rfl⟩
  · have hrange := resolveTimeDaily_range fm.time
    cases hr : resolveTimeDaily fm.time with
    | mk th tm =>
        rw [hr] at hrange
        unfold calculate_next_due_date
        rw [if_neg (by decide : ¬("daily" : String) = "once")]
        rw [if_neg (by decide : ¬("daily" : String) = "days_of_the_week")]
        rw [if_pos (rfl : ("daily" : String) = "daily")]
        rw [hr]
        dsimp only
        rw [replaceHM_ok _ hrange.1 hrange.2.1 hrange.2.2.1 hrange.2.2.2]
        exact ⟨_, rfl⟩
  · intro hcase
    rw [hdt]
    constructor
    · cases hcase with
      | inl hnone => rw [hnone]; rfl
      | inr hfi =>
          simp only [resolveTimeDOW]
          by_cases h0 : fm.time.getD "" = ""
          · rw [if_pos h0]
          · rw [if_neg h0, hfi]; rfl
    · cases hcase with
      | inl hnone => rw [hnone]; rfl
      | inr hfi =>
          simp only [resolveTimeDaily]
          by_cases h0 : fm.time.getD "" = ""
          · rw [if_pos h0]
          · rw [if_neg h0, hfi]

/-- Witness for C3 (amended) at a malformed time string with no legacy
`dueTime`. -/
theorem next_due_total_witness :
    (∃ d, calculate_next_due_date envW "days_of_the_week" fmGarbage {} = .ok d) ∧
    (∃ d, calculate_next_due_date envW "daily" fmGarbage {} = .ok d) ∧
    ((fmGarbage.time = none ∨ fromisoHM? (fmGarbage.time.getD "") = none) →
      resolveTimeDOW fmGarbage.time ({} : FreqMetaJson).dueTime = .ok (12, 0) ∧
      resolveTimeDaily fmGarbage.time = (12, 0)) :=
  next_due_total_when_duetime_absent envW fmGarbage {} rfl

/-- C3 counterexample: with a malformed RFC3339 `time` string and a
malformed legacy `dueTime` (`"ab:cd"`), the `days_of_the_week` branch of
`calculate_next_due_date` raises (`int("ab")` is a `ValueError`), so the
function does not degrade every malformed time string to noon. -/
theorem next_due_raises_on_malformed_duetime :
    calculate_next_due_date envW "days_of_the_week" fmGarbage { dueTime := some "ab:cd" } =
      .error () := rfl

/-- C4 (code bug): on the record `name="Trash", frequencyType="once",
assignees_usernames=["Alice"]` with user map `Alice -> 7`, `parse_chore`
returns `None` (a parse failure): the `ChoreCreate(...)` call passes
camelCase keyword names (`importCallKwargKeys`) while the pydantic model
declares PascalCase fields, so the required field `Name` is missing and
validation raises.  The intermediate values match the claim — the
assignee mapping yields primary assignee 7 and `[\x7b"userId": 7\x7d]`, and the
due date is tomorrow — and the repository's own integration tests
construct `ChoreCreate` with the same camelCase keywords. -/
theorem trash_record_parse_fails :
    parse_chore envW aliceMap [] trashRecord = none ∧
    map_assignees aliceMap ["Alice"] = (some 7, [{ userId := 7 }]) ∧
    derivedFrequencyType trashRecord = "once" ∧
    calculate_next_due_date envW (derivedFrequencyType trashRecord) {} trashRecord.fmJson =
      .ok (.naiveZ (envW.sysNow + 1440)) ∧
    choreCreateInit importCallKwargKeys = .error "Name: Field required" :=
  ⟨rfl, rfl, rfl, rfl, rfl⟩

/-- C5 counterexample: `days_of_the_week` is not among the values the
`ChoreCreate` frequency-type validator accepts; the validator rejects it. -/
theorem days_of_week_rejected_by_validator :
    "days_of_the_week" ∉ valid_types ∧
    validate_frequency_type (some "days_of_the_week") =
      .error "FrequencyType must be one of: once, daily, weekly, monthly, yearly, interval_based" :=
  ⟨by decide, rfl⟩

/-- C5 (amended): whenever an import record's frequency metadata contains
explicit weekdays, `parse_chore` derives the frequency type
`days_of_the_week` (overriding any supplied type), but `days_of_the_week`
is NOT among the enumerated values accepted by the creation model's
frequency-type validator (`once`, `daily`, `weekly`, `monthly`, `yearly`,
`interval_based`), which rejects it. -/
theorem derived_days_of_week_but_not_in_enum :
    (∀ (rec : ImportRecord) (ds : List String),
        rec.fmJson.daysOfWeek = some ds → ds ≠ [] →
        derivedFrequencyType rec = "days_of_the_week") ∧
    valid_types = ["once", "daily", "weekly", "monthly", "yearly", "interval_based"] ∧
    "days_of_the_week" ∉ valid_types ∧
    validate_frequency_type (some "days_of_the_week") =
      .error "FrequencyType must be one of: once, daily, weekly, monthly, yearly, interval_based" := by
  refine ⟨?_, rfl, by decide, rfl⟩
  intro rec ds hds hne
  unfold derivedFrequencyType
  rw [hds]
  simp only [Option.getD_some]
  rw [if_pos hne]

/-- Witness for C5 (amended): a record with `daysOfWeek=["Mon"]` and a
supplied type `weekly` is overridden to `days_of_the_week`. -/
theorem derived_days_of_week_witness :
    derivedFrequencyType
      { frequencyType? := some "weekly", fmJson := { daysOfWeek := some ["Mon"] } } =
      "days_of_the_week" :=
  derived_days_of_week_but_not_in_enum.1
    { frequencyType? := some "weekly", fmJson := { daysOfWeek := some ["Mon"] } }
    ["Mon"] rfl (by decide)

/-- C6 counterexample: an input consisting of a single NUL character (code point 0) passes the
emptiness check (`str.strip` does not strip NUL), then every character is
removed by sanitization, so the validator returns the empty string rather
than raising. -/
theorem validate_name_control_only_gives_empty :
    validate_name "\x00" = .ok "" := rfl

/-- C6 (amended): the chore-name validator either raises a validation
error (exactly on empty or whitespace-only input) or returns the
control-character-stripped, whitespace-trimmed name — which can be empty,
e.g. for the single-NUL input; `"   "` fails validation and the input
`a NUL b` sanitizes to `"ab"`. -/
theorem validate_name_behavior :
    (∀ v r, validate_name v = .ok r →
      r = pyStrip (sanitizeChars v) ∧ v ≠ "" ∧ pyStrip v ≠ "") ∧
    validate_name "   " = .error "Chore name cannot be empty or whitespace only" ∧
    validate_name "a\x00b" = .ok "ab" := by
  refine ⟨?_, rfl, rfl⟩
  intro v r hok
  unfold validate_name at hok
  by_cases hc : v = "" ∨ pyStrip v = ""
  · rw [if_pos hc] at hok
    exact absurd hok (by simp)
  · rw [if_neg hc] at hok
    injection hok with hr
    push_neg at hc
    exact ⟨hr.symm, hc.1, hc.2⟩

/-- Witness for C6 (amended) at the input `a NUL b`. -/
theorem validate_name_behavior_witness :
    ("ab" : String) = pyStrip (sanitizeChars "a\x00b") ∧
    ("a\x00b" : String) ≠ "" ∧ pyStrip "a\x00b" ≠ "" :=
  validate_name_behavior.1 "a\x00b" "ab" rfl

/-- C7: a non-zero signed offset-in-minutes becomes exactly one template
carrying that signed value with unit minutes; a truthy remind-at-due-time
flag contributes one additional zero-valued template; and empty input
yields the empty dict (`none` in the model — the function always returns
a dict, never Python `None`), carrying an empty template set. -/
theorem notification_transform_shape (offset : Int) (hoff : offset ≠ 0) :
    transform_notification_metadata { offsetMinutes := some offset } =
      some [{ value := offset, unit := "m" }] ∧
    transform_notification_metadata { offsetMinutes := some offset, remindAtDueTime := some true } =
      some [{ value := offset, unit := "m" }, { value := 0, unit := "m" }] ∧
    transform_notification_metadata { remindAtDueTime := some true } =
      some [{ value := 0, unit := "m" }] ∧
    transform_notification_metadata {} = none ∧
    notifTemplates (transform_notification_metadata {}) = [] := by
  refine ⟨?_, ?_, rfl, rfl, rfl⟩ <;> simp [transform_notification_metadata, hoff]

/-- Witness for C7 at offset -30 (thirty minutes before due). -/
theorem notification_transform_shape_witness :
    transform_notification_metadata { offsetMinutes := some (-30) } =
      some [{ value := -30, unit := "m" }] ∧
    transform_notification_metadata { offsetMinutes := some (-30), remindAtDueTime := some true } =
      some [{ value := -30, unit := "m" }, { value := 0, unit := "m" }] ∧
    transform_notification_metadata { remindAtDueTime := some true } =
      some [{ value := 0, unit := "m" }] ∧
    transform_notification_metadata {} = none ∧
    notifTemplates (transform_notification_metadata {}) = [] :=
  notification_transform_shape (-30) (by decide)

/-- C8: for frequency type `once`, `calculate_next_due_date` returns the
current naive clock reading plus one day, serialized with a UTC marker
(`Due.naiveZ` models `(datetime.now() + timedelta(days=1)).isoformat() + "Z"`),
regardless of any other metadata supplied. -/
theorem once_due_is_tomorrow (env : Env) (fm : FreqMeta) (fj : FreqMetaJson) :
    calculate_next_due_date env "once" fm fj = .ok (.naiveZ (env.sysNow + 1440)) := rfl
theorem import_chore_adds_one (env : Env) (um lm : List (String × Int))
    (oc : ChoreKwargs → Except String Int) (st : ImportState) (rec : ImportRecord) :
    (import_chore env um lm oc st rec).created.length
      + (import_chore env um lm oc st rec).failed.length
      = st.created.length + st.failed.length + 1 := by
  unfold import_chore
  cases hpc : parse_chore env um lm rec with
  | none =>
      simp only [List.length_append, List.length_cons, List.length_nil]
      omega
  | some c =>
      dsimp only
      cases hoc : oc c with
      | ok i =>
          simp only [List.length_append, List.length_cons, List.length_nil]
          omega
      | error e =>
          simp only [List.length_append, List.length_cons, List.length_nil]
          omega

theorem import_chore_failed_extends (env : Env) (um lm : List (String × Int))
    (oc : ChoreKwargs → Except String Int) (st : ImportState) (rec : ImportRecord) :
    ∃ tail, (import_chore env um lm oc st rec).failed = st.failed ++ tail := by
  unfold import_chore
  cases hpc : parse_chore env um lm rec with
  | none => exact ⟨_, rfl⟩
  | some c =>
      dsimp only
      cases hoc : oc c with
      | ok i => exact ⟨[], by simp⟩
      | error e => exact ⟨_, rfl⟩

theorem import_many_adds_length (env : Env) (um lm : List (String × Int))
    (oc : ChoreKwargs → Except String Int) :
    ∀ (recs : List ImportRecord) (st : ImportState),
      (import_many env um lm oc recs st).created.length
        + (import_many env um lm oc recs st).failed.length
        = st.created.length + st.failed.length + recs.length
  | [], st => by simp [import_many]
  | rec :: rest, st => by
      have ih := import_many_adds_length env um lm oc rest (import_chore env um lm oc st rec)
      have h1 := import_chore_adds_one env um lm oc st rec
      simp only [import_many, List.length_cons]
      omega

theorem import_many_failed_extends (env : Env) (um lm : List (String × Int))
    (oc : ChoreKwargs → Except String Int) :
    ∀ (recs : List ImportRecord) (st : ImportState),
      ∃ tail, (import_many env um lm oc recs st).failed = st.failed ++ tail
  | [], st => ⟨[], by simp [import_many]⟩
  | rec :: rest, st => by
      obtain ⟨t1, h1⟩ := import_chore_failed_extends env um lm oc st rec
      obtain ⟨t2, h2⟩ := import_many_failed_extends env um lm oc rest
        (import_chore env um lm oc st rec)
      exact ⟨t1 ++ t2, by simp [import_many, h2, h1]⟩

theorem import_many_append (env : Env) (um lm : List (String × Int))
    (oc : ChoreKwargs → Except String Int) :
    ∀ (l1 l2 : List ImportRecord) (st : ImportState),
      import_many env um lm oc (l1 ++ l2) st
        = import_many env um lm oc l2 (import_many env um lm oc l1 st)
  | [], l2, st => rfl
  | rec :: rest, l2, st => by
      simp only [List.cons_append, import_many]
      exact import_many_append env um lm oc rest l2 _

/-- C9: during a batch import, a record whose parse fails is recorded as
a per-record failure with the reason `"Failed to parse"` and does not
abort the batch: every record of the file contributes exactly one outcome
(created or failed), so the created and failed counts sum to the batch
length, and the final summary reports the attempted, succeeded and failed
counts. -/
theorem batch_parse_failure_recorded_and_batch_continues
    (env : Env) (um lm : List (String × Int)) (oc : ChoreKwargs → Except String Int)
    (pre post : List ImportRecord) (rec : ImportRecord)
    (hp : parse_chore env um lm rec = none) :
    (recDisplayName rec, "Failed to parse") ∈
      (import_many env um lm oc (pre ++ rec :: post) {}).failed ∧
    (import_many env um lm oc (pre ++ rec :: post) {}).created.length
      + (import_many env um lm oc (pre ++ rec :: post) {}).failed.length
      = pre.length + 1 + post.length ∧
    import_summary env um lm oc (pre ++ rec :: post) =
      ((pre ++ rec :: post).length,
       (import_many env um lm oc (pre ++ rec :: post) {}).created.length,
       (import_many env um lm oc (pre ++ rec :: post) {}).failed.length) := by
  refine ⟨?_, ?_, rfl⟩
  · rw [import_many_append env um lm oc pre (rec :: post) {}]
    have hstep : import_chore env um lm oc (import_many env um lm oc pre {}) rec
        = { import_many env um lm oc pre {} with
            failed := (import_many env um lm oc pre {}).failed
              ++ [(recDisplayName rec, "Failed to parse")] } := by
      unfold import_chore
      rw [hp]
    simp only [import_many, hstep]
    obtain ⟨tail, htail⟩ := import_many_failed_extends env um lm oc post
      ({ import_many env um lm oc pre {} with
         failed := (import_many env um lm oc pre {}).failed
           ++ [(recDisplayName rec, "Failed to parse")] })
    rw [htail]
    simp
  · have := import_many_adds_length env um lm oc (pre ++ rec :: post) {}
    simp only [ImportState.created, ImportState.failed, List.length_append,
      List.length_cons] at this ⊢
    simp [ImportState] at this ⊢
    omega

/-- Witness for C9 with a three-record batch whose middle record has no
name (its parse fails). -/
theorem batch_parse_failure_witness :
    (recDisplayName {}, "Failed to parse") ∈
      (import_many envW [] [] (fun _ => .error "network error")
        ([recA] ++ ({} : ImportRecord) :: [recB]) {}).failed ∧
    (import_many envW [] [] (fun _ => .error "network error")
        ([recA] ++ ({} : ImportRecord) :: [recB]) {}).created.length
      + (import_many envW [] [] (fun _ => .error "network error")
        ([recA] ++ ({} : ImportRecord) :: [recB]) {}).failed.length
      = [recA].length + 1 + [recB].length ∧
    import_summary envW [] [] (fun _ => .error "network error")
        ([recA] ++ ({} : ImportRecord) :: [recB]) =
      (([recA] ++ ({} : ImportRecord) :: [recB]).length,
       (import_many envW [] [] (fun _ => .error "network error")
          ([recA] ++ ({} : ImportRecord) :: [recB]) {}).created.length,
       (import_many envW [] [] (fun _ => .error "network error")
          ([recA] ++ ({} : ImportRecord) :: [recB]) {}).failed.length) :=
  batch_parse_failure_recorded_and_batch_continues envW [] []
    (fun _ => .error "network error") [recA] [recB] {} rfl

/-- C10: the comment stripping of `import_from_file` deletes `//`-to-end
of-line and block-comment spans regardless of JSON string boundaries.
On `importFileStraddle` (valid JSON, one string value is exactly `//`)
the stripped content still parses but its parsed value differs from the
file's actual JSON values; on `importFileUrl` (valid JSON, a URL value
containing `//`) the stripped content no longer parses at all. -/
theorem comment_stripping_corrupts_string_values :
    jsonLoads importFileStraddle =
      some (.obj [("chores", .arr [.obj
        [("name", .str "a/*"), ("x", .str "//"), ("y", .str "*/b")]])]) ∧
    containsDoubleSlash "//".data = true ∧
    stripComments importFileStraddle = "\x7b\"chores\": [\x7b\"name\": \"ab\"\x7d]\x7d" ∧
    jsonLoads (stripComments importFileStraddle) =
      some (.obj [("chores", .arr [.obj [("name", .str "ab")]])]) ∧
    (Json.obj [("chores", .arr [.obj [("name", .str "ab")]])] ≠
      Json.obj [("chores", .arr [.obj
        [("name", .str "a/*"), ("x", .str "//"), ("y", .str "*/b")]])]) ∧
    jsonLoads importFileUrl =
      some (.obj [("chores", .arr [.obj [("name", .str "http://e")]])]) ∧
    containsDoubleSlash "http://e".data = true ∧
    jsonLoads (stripComments importFileUrl) = none :=
  ⟨rfl, rfl, rfl, rfl, by simp, rfl, rfl, rfl⟩
end Donetick
